import Mathlib

/-!
Shallow embedding of the event_handler repository (key_map.py, key_manager.py,
event_manager.py, base_manager.py).

Python dictionaries are modelled as insertion-ordered association lists with
unique keys, which is exactly the observable semantics of dict iteration,
`setdefault`, item assignment and `pop`.  Pygame key codes, modifier bitmasks
and event types are natural numbers; Python `None` is `Option.none`.  Callables
are modelled by `PyFunc`, whose fields mirror the attribute tags that
`base_manager.py` sets on functions; classes, methods and instances are
identified by their object identity, modelled as a `Nat` id.
-/

set_option maxHeartbeats 1000000

namespace EventHandler

/-- A pygame key code, or None for the unassigned pseudo-trigger. -/
abbrev Trigger := Option Nat

/-- A pygame modifier bitmask, or None (wildcard). -/
abbrev Mods := Option Nat

/-- key_map.py: `KeyBind = NamedTuple("KeyBind", [("bind_name", str), ("mod", int | None)])`. -/
structure KeyBind where
  bind_name : String
  mod : Mods
deriving DecidableEq

/-- Python `d.get(k)` on an insertion-ordered dict modelled as an assoc list. -/
def alistGet {α β : Type} [DecidableEq α] : List (α × β) → α → Option β
  | [], _ => none
  | (k0, v0) :: rest, k => if k0 = k then some v0 else alistGet rest k

/-- Python `d.setdefault(k, dflt)` followed by an in-place update of the looked-up
value by `f` (the pervasive `d.setdefault(k, dflt).append(x)` idiom).  If `k` is
absent a fresh entry `(k, f dflt)` is appended at the end, preserving dict
insertion order. -/
def alistModify {α β : Type} [DecidableEq α] : List (α × β) → α → β → (β → β) → List (α × β)
  | [], k, dflt, f => [(k, f dflt)]
  | (k0, v0) :: rest, k, dflt, f =>
    if k0 = k then (k0, f v0) :: rest else (k0, v0) :: alistModify rest k dflt f

/-- Python `d[k] = v` on a dict: replace in place if the key exists, else append. -/
def alistSet {α β : Type} [DecidableEq α] : List (α × β) → α → β → List (α × β)
  | [], k, v => [(k, v)]
  | (k0, v0) :: rest, k, v =>
    if k0 = k then (k0, v) :: rest else (k0, v0) :: alistSet rest k v

/-- Python `d.pop(k, None)` / key deletion: drop the entry for `k` if present. -/
def alistPop {α β : Type} [DecidableEq α] : List (α × β) → α → List (α × β)
  | [], _ => []
  | (k0, v0) :: rest, k => if k0 = k then rest else (k0, v0) :: alistPop rest k

/-- key_map.py: `KeyMap.key_binds : dict[int | None, list[KeyBind]]`. -/
structure KeyMap where
  key_binds : List (Trigger × List KeyBind)
deriving DecidableEq

/-- Scanning loop of `KeyMap.get_bound_key`: first `(key, key_bind.mod)` whose
bind has the requested name, in dict insertion order. -/
def getBoundAux (bind_name : String) : List (Trigger × List KeyBind) → Option (Trigger × Mods)
  | [] => none
  | (k, binds) :: rest =>
    match binds.find? (fun b => b.bind_name == bind_name) with
    | some b => some (k, b.mod)
    | none => getBoundAux bind_name rest

/-- key_map.py `KeyMap.get_bound_key`: returns the `(key, mod)` pair of the first
bind carrying `bind_name`, or None if the name is bound nowhere. -/
def KeyMap.get_bound_key (km : KeyMap) (bind_name : String) : Option (Trigger × Mods) :=
  getBoundAux bind_name km.key_binds

/-- key_map.py `KeyMap.rebind`: remove every bind with the given name from every
key's list (the collect-then-`list.remove` loop removes exactly the binds whose
`bind_name` matches), prune keys whose lists are empty, then
`setdefault(new_key, []).append(new_key_bind)`. -/
def KeyMap.rebind (km : KeyMap) (new_key_bind : KeyBind) (new_key : Trigger) : KeyMap :=
  let cleaned :=
    (km.key_binds.map
      (fun p => (p.1, p.2.filter (fun b => b.bind_name != new_key_bind.bind_name)))).filter
      (fun p => !p.2.isEmpty)
  ⟨alistModify cleaned new_key [] (fun l => l ++ [new_key_bind])⟩

/-- base_manager.py: a Python function object together with the attribute tags
`_runs_sequential` / `_runs_concurrent` that BaseManager sets on it
(`true` models the attribute being present). -/
structure PyFunc where
  id : Nat
  runs_sequential : Bool
  runs_concurrent : Bool
deriving DecidableEq

/-- base_manager.py `BaseManager.sequential`: deletes `_runs_concurrent` if
present and sets `_runs_sequential`. -/
def BaseManager.sequential (func : PyFunc) : PyFunc :=
  { func with runs_concurrent := false, runs_sequential := true }

/-- base_manager.py `BaseManager.concurrent`: deletes `_runs_sequential` if
present and sets `_runs_concurrent`. -/
def BaseManager.concurrent (func : PyFunc) : PyFunc :=
  { func with runs_sequential := false, runs_concurrent := true }

/-- key_manager.py: one entry of a method's `_assigned_listeners` pending-tag
list: `(self, key_bind_name, default_key, default_mod, event_type)`, the
KeyListener identified by object identity (a Nat id). -/
structure TagEntry where
  listener : Nat
  bind_name : String
  default_key : Trigger
  default_mod : Mods
  event_type : Nat
deriving DecidableEq

/-- A method object: its identity plus the optional `_assigned_listeners`
attribute (`none` models the attribute being absent). -/
structure TaggedMethod where
  id : Nat
  assigned_listeners : Option (List TagEntry)
deriving DecidableEq

/-- key_manager.py `KeyListener.bind_method` decorator body: read the existing
`_assigned_listeners` list if any, append the new tag, store it back. -/
def KeyListener.bind_method (selfId : Nat) (key_bind_name : String) (default_key : Trigger)
    (default_mod : Mods) (event_type : Nat) (method : TaggedMethod) : TaggedMethod :=
  let assigned := method.assigned_listeners.getD []
  let entry : TagEntry := ⟨selfId, key_bind_name, default_key, default_mod, event_type⟩
  { method with assigned_listeners := some (assigned ++ [entry]) }

/-- key_manager.py: the per-instance dictionaries of a KeyListener.
`key_hooks` is `_key_hooks : bind name → event type → list of callables`;
`class_listeners` is `_class_listeners : bind name → event type → (method, cls)`;
`class_listener_instances`, `class_listener_binds` and `assigned_classes`
mirror the remaining dicts, with classes, methods and instances as Nat ids. -/
structure KeyListener where
  key_hooks : List (String × List (Nat × List PyFunc))
  class_listeners : List (String × List (Nat × List (Nat × Nat)))
  class_listener_instances : List (Nat × List Nat)
  class_listener_binds : List (Nat × List String)
  assigned_classes : List (Nat × List Nat)
deriving DecidableEq

/-- The KeyListener with all dictionaries empty, as built by `__init__`. -/
def KeyListener.init : KeyListener := ⟨[], [], [], [], []⟩

/-- key_manager.py `KeyListener._generate_bind`: if `get_bound_key` returns a
falsy value (None — a returned tuple is always truthy), insert
`KeyBind(name, default_mod)` via `key_binds.setdefault(default_key, []).append`. -/
def KeyListener.generate_bind (km : KeyMap) (key_bind_name : String) (default_key : Trigger)
    (default_mod : Mods) : KeyMap :=
  if (km.get_bound_key key_bind_name).isSome then km
  else ⟨alistModify km.key_binds default_key [] (fun l => l ++ [⟨key_bind_name, default_mod⟩])⟩

/-- key_manager.py `KeyListener.rebind`: reads the current binding, and — due to
the guard `if old_bind:` — warns and returns None whenever the bind DOES exist,
only falling through to `key_map.rebind` when `get_bound_key` returned None.
The value returned is `old_bind`, which is None on both paths. -/
def KeyListener.rebind (km : KeyMap) (key_bind_name : String) (new_key : Trigger)
    (new_mod : Mods) : KeyMap × Option (Trigger × Mods) :=
  let old_bind := km.get_bound_key key_bind_name
  if old_bind.isSome then (km, none)
  else (km.rebind ⟨key_bind_name, new_mod⟩ new_key, old_bind)

/-- key_manager.py `KeyListener.bind`: `_generate_bind`, then the decorator adds
the responder under `(key_bind_name, event_type)` in `_key_hooks` unless it is
already in that list. -/
def KeyListener.bind (km : KeyMap) (kl : KeyListener) (key_bind_name : String)
    (default_key : Trigger) (default_mod : Mods) (event_type : Nat) (responder : PyFunc) :
    KeyMap × KeyListener :=
  let km2 := KeyListener.generate_bind km key_bind_name default_key default_mod
  let hooks2 :=
    alistModify kl.key_hooks key_bind_name []
      (fun hooks => alistModify hooks event_type []
        (fun listeners => if responder ∈ listeners then listeners else listeners ++ [responder]))
  (km2, { kl with key_hooks := hooks2 })

/-- key_manager.py `KeyListener._capture_method`: `_generate_bind`, then append
`(method, cls)` under `(key_bind_name, event_type)` in `_class_listeners`,
append the bind name in `_class_listener_binds[method]`, and append the method
in `_assigned_classes[cls]` — all three via `setdefault(...).append(...)`. -/
def KeyListener.capture_method (km : KeyMap) (kl : KeyListener) (cls : Nat) (method : Nat)
    (key_bind_name : String) (default_key : Trigger) (default_mod : Mods) (event_type : Nat) :
    KeyMap × KeyListener :=
  let km2 := KeyListener.generate_bind km key_bind_name default_key default_mod
  let cl2 :=
    alistModify kl.class_listeners key_bind_name []
      (fun d => alistModify d event_type [] (fun l => l ++ [(method, cls)]))
  let clb2 := alistModify kl.class_listener_binds method [] (fun l => l ++ [key_bind_name])
  let ac2 := alistModify kl.assigned_classes cls [] (fun l => l ++ [method])
  (km2, { kl with class_listeners := cl2, class_listener_binds := clb2, assigned_classes := ac2 })

/-- key_manager.py `KeyListener._verify_listener` loop: scan the pending-tag
list; on the FIRST entry whose listener `is self`, capture it, record its index
and `break`; then pop the recorded indices.  Net effect: the first matching
entry is removed (and returned), everything else is kept in order. -/
def consumeFirst (selfId : Nat) : List TagEntry → Option TagEntry × List TagEntry
  | [] => (none, [])
  | e :: rest =>
    if e.listener = selfId then (some e, rest)
    else
      let r := consumeFirst selfId rest
      (r.1, e :: r.2)

/-- key_manager.py `KeyListener.register_class`, body for one marked method:
if `_assigned_listeners` is absent the method is skipped; otherwise
`_verify_listener` consumes the first entry naming this listener (capturing the
method when one is found), and the attribute is deleted exactly when the
remaining list is empty. -/
def KeyListener.register_class_method (km : KeyMap) (kl : KeyListener) (selfId : Nat)
    (cls : Nat) (method : TaggedMethod) : KeyMap × KeyListener × TaggedMethod :=
  match method.assigned_listeners with
  | none => (km, kl, method)
  | some entries =>
    let r := consumeFirst selfId entries
    let p := match r.1 with
      | some e =>
        KeyListener.capture_method km kl cls method.id e.bind_name e.default_key
          e.default_mod e.event_type
      | none => (km, kl)
    let remaining : Option (List TagEntry) := if r.2.isEmpty then none else some r.2
    (p.1, p.2, { method with assigned_listeners := remaining })

/-- A pygame event as `KeyListener.notify` observes it: `event.type`, plus the
`key` and `mod` attributes read via `getattr(event, ..., None)` (absent
attributes are modelled as `none`). -/
structure Event where
  etype : Nat
  key : Option Nat
  mod : Option Nat
deriving DecidableEq

/-- One invocation that `notify` performs.  `thread f` is
`threading.Thread(target=responder, args=(event,)).start()`;
`threadMethod m i` is `threading.Thread(target=method, args=(instance, event)).start()`;
`callSync f` is a synchronous call `responder(event)` on the dispatching thread —
this constructor is never produced by the embedded `notify`, whose synchronous
call site (`# hook(event)`) is commented out in the source. -/
inductive DispatchAction where
  | thread : PyFunc → DispatchAction
  | threadMethod : Nat → Nat → DispatchAction
  | callSync : PyFunc → DispatchAction
deriving DecidableEq

/-- Whether an action starts an independent worker thread. -/
def DispatchAction.isThread : DispatchAction → Bool
  | DispatchAction.thread _ => true
  | DispatchAction.threadMethod _ _ => true
  | DispatchAction.callSync _ => false

/-- The modifier test of `KeyListener.notify`, line for line:
`(key_bind.mod is None) or (mod_keys is not None and (key_bind.mod & mod_keys))`,
where a nonzero bitwise AND is truthy. -/
def matchesMods (bind_mod : Mods) (mod_keys : Mods) : Bool :=
  match bind_mod, mod_keys with
  | none, _ => true
  | some bm, some mk => Nat.land bm mk != 0
  | some _, none => false

/-- `self._key_hooks.get(bind_name, {})` then `.get(event_type, [])`. -/
def respondersFor (kl : KeyListener) (bind_name : String) (event_type : Nat) : List PyFunc :=
  (alistGet ((alistGet kl.key_hooks bind_name).getD []) event_type).getD []

/-- `self._class_listeners.get(bind_name, {})` then `.get(event_type, [])`. -/
def listenersFor (kl : KeyListener) (bind_name : String) (event_type : Nat) :
    List (Nat × Nat) :=
  (alistGet ((alistGet kl.class_listeners bind_name).getD []) event_type).getD []

/-- `self._class_listener_instances.get(cls, WeakSet())`, iterated. -/
def instancesFor (kl : KeyListener) (cls : Nat) : List Nat :=
  (alistGet kl.class_listener_instances cls).getD []

/-- The actions `notify` performs for one `key_bind` of the matched key's list:
nothing when the modifier test fails (`continue`), else a worker thread per
responder followed by a worker thread per (method, live instance) pair. -/
def bindActions (kl : KeyListener) (event : Event) (key_bind : KeyBind) : List DispatchAction :=
  if matchesMods key_bind.mod event.mod then
    (respondersFor kl key_bind.bind_name event.etype).map DispatchAction.thread ++
      ((listenersFor kl key_bind.bind_name event.etype).map
        (fun mc => (instancesFor kl mc.2).map
          (fun inst => DispatchAction.threadMethod mc.1 inst))).flatten
  else []

/-- key_manager.py `KeyListener.notify`: read `key` and `mod` off the event with
a None default, look the key up in the shared key map
(`self.key_map.key_binds.get(key_changed, [])`), and process each bind of that
list in order. -/
def KeyListener.notify (km : KeyMap) (kl : KeyListener) (event : Event) : List DispatchAction :=
  let key_binds := (alistGet km.key_binds event.key).getD []
  (key_binds.map (bindActions kl event)).flatten

/-- `list.remove(x)`: drop the first occurrence. -/
def removeFirst (l : List PyFunc) (f : PyFunc) : List PyFunc :=
  match l with
  | [] => []
  | x :: rest => if x = f then rest else x :: removeFirst rest f

/-- The loop of `KeyListener.unbind` with a bind name: walk the inner dict's
value lists in order; on a list not containing `func` the method warns and
returns (removals already made persist), else it removes the first occurrence
and continues. -/
def unbindLoop (func : PyFunc) : List (Nat × List PyFunc) → List (Nat × List PyFunc)
  | [] => []
  | (et, l) :: rest =>
    if func ∈ l then (et, removeFirst l func) :: unbindLoop func rest
    else (et, l) :: rest

/-- key_manager.py `KeyListener.unbind` with a bind name: when the name maps to a
missing or empty dict (`if not bind_dict`), warn and return with the state
unchanged; this branch never raises. -/
def KeyListener.unbind_named (kl : KeyListener) (func : PyFunc) (bind_name : String) :
    KeyListener :=
  match alistGet kl.key_hooks bind_name with
  | none => kl
  | some bind_dict =>
    if bind_dict.isEmpty then kl
    else { kl with key_hooks := alistSet kl.key_hooks bind_name (unbindLoop func bind_dict) }

/-- Inner update of `unbind_method` for one bind name:
`event_sets = self._class_listeners.get(bind_name, {})`, filter each event
type's list to drop pairs whose method `is` the argument, then write the dict
back with `update`. -/
def unbindMethodAt (method : Nat) (cl : List (String × List (Nat × List (Nat × Nat))))
    (bind_name : String) : List (String × List (Nat × List (Nat × Nat))) :=
  let event_sets := (alistGet cl bind_name).getD []
  let filtered := event_sets.map (fun p => (p.1, p.2.filter (fun ls => ls.1 != method)))
  alistSet cl bind_name filtered

/-- key_manager.py `KeyListener.unbind_method`: for each recorded bind name
(`_class_listener_binds.get(method, [])`) filter the method out of
`_class_listeners`, then `self._class_listener_binds.pop(method)` — which
raises KeyError when the method was never captured. -/
def KeyListener.unbind_method (kl : KeyListener) (method : Nat) :
    Except String KeyListener :=
  let names := (alistGet kl.class_listener_binds method).getD []
  let cl2 := names.foldl (fun acc name => unbindMethodAt method acc name) kl.class_listeners
  match alistGet kl.class_listener_binds method with
  | none => Except.error "KeyError"
  | some _ =>
    Except.ok { kl with class_listeners := cl2,
                        class_listener_binds := alistPop kl.class_listener_binds method }

/-- key_manager.py `KeyListener.deregister_class`:
`_class_listener_instances.pop(cls, None)` (never raises), `unbind_method` for
every method recorded in `_assigned_classes.get(cls, [])`, then
`self._assigned_classes.pop(cls)` — which raises KeyError when the class was
never registered. -/
def KeyListener.deregister_class (kl : KeyListener) (cls : Nat) : Except String KeyListener :=
  let kl1 := { kl with class_listener_instances := alistPop kl.class_listener_instances cls }
  let methods := (alistGet kl1.assigned_classes cls).getD []
  let folded := methods.foldl
    (fun acc m =>
      match acc with
      | Except.error e => Except.error e
      | Except.ok st => KeyListener.unbind_method st m)
    (Except.ok kl1)
  match folded with
  | Except.error e => Except.error e
  | Except.ok st =>
    match alistGet st.assigned_classes cls with
    | none => Except.error "KeyError"
    | some _ => Except.ok { st with assigned_classes := alistPop st.assigned_classes cls }

/-- event_manager.py: the dictionaries of an EventManager (ids as in
`KeyListener`). -/
structure EventManager where
  listeners : List (Nat × List Nat)
  class_listeners : List (Nat × List (Nat × Nat))
  class_listener_instances : List (Nat × List Nat)
  class_listener_events : List (Nat × List Nat)
  assigned_classes : List (Nat × List Nat)
deriving DecidableEq

/-- The EventManager with all dictionaries empty, as built by `__init__`. -/
def EventManager.init : EventManager := ⟨[], [], [], [], []⟩

/-- event_manager.py `EventManager.register` decorator body:
`self._listeners.setdefault(event_type, []).append(listener)` — appended
unconditionally, with no membership check. -/
def EventManager.register (em : EventManager) (event_type : Nat) (listener : Nat) :
    EventManager :=
  { em with listeners := alistModify em.listeners event_type [] (fun l => l ++ [listener]) }

/-- `setdefault(key, []).append(bind)` on a KeyMap. -/
def KeyMap.insertBind (km : KeyMap) (key : Trigger) (bind : KeyBind) : KeyMap :=
  ⟨alistModify km.key_binds key [] (fun l => l ++ [bind])⟩

/-- Modelled from the spec: the bind-by-bind step of `KeyMap.merge`, which is
absent from src/src/event_handler/key_map.py (only its caller
`KeyListener.load_from_file` and the repository tests refer to it).  Spec §4.1:
"for every bind present in `other` but absent (by name) in `self`, inserts it
at its trigger in `other`; binds present in both keep `self`'s
trigger/modifier". -/
def mergeBindsAt (acc : KeyMap) (key : Trigger) : List KeyBind → KeyMap
  | [] => acc
  | b :: rest =>
    let acc2 := if (acc.get_bound_key b.bind_name).isSome then acc else acc.insertBind key b
    mergeBindsAt acc2 key rest

/-- Modelled from the spec: fold of `mergeBindsAt` over the other table's
entries in insertion order. -/
def mergeEntries (acc : KeyMap) : List (Trigger × List KeyBind) → KeyMap
  | [] => acc
  | (key, binds) :: rest => mergeEntries (mergeBindsAt acc key binds) rest

/-- Modelled from the spec: `KeyMap.merge(other)` — insert every bind of `other`
whose name is absent from `self`, at its trigger in `other`; never remove or
overwrite a name already present in `self`. -/
def KeyMap.merge (self other : KeyMap) : KeyMap :=
  mergeEntries self other.key_binds

/-- key_manager.py `KeyListener.load_from_file`, with the file read and
`parser.load` treated as the external collaborator producing `parsed`: the body
is exactly `cls.key_map.merge(binds)`. -/
def KeyListener.load_from_file (key_map parsed : KeyMap) : KeyMap :=
  key_map.merge parsed

/-! Helper lemmas about the dict model. -/

theorem alistGet_alistModify_self {α β : Type} [DecidableEq α] (l : List (α × β)) (k : α)
    (dflt : β) (f : β → β) :
    alistGet (alistModify l k dflt f) k = some (f ((alistGet l k).getD dflt)) := by
  induction l with
  | nil => simp [alistGet, alistModify]
  | cons hd tl ih =>
    obtain ⟨k0, v0⟩ := hd
    by_cases hk : k0 = k
    · simp [alistGet, alistModify, hk]
    · simp [alistGet, alistModify, hk, ih]

theorem alistGet_alistModify_ne {α β : Type} [DecidableEq α] (l : List (α × β)) (k k2 : α)
    (dflt : β) (f : β → β) (hne : k ≠ k2) :
    alistGet (alistModify l k dflt f) k2 = alistGet l k2 := by
  induction l with
  | nil => simp [alistGet, alistModify, hne]
  | cons hd tl ih =>
    obtain ⟨k0, v0⟩ := hd
    by_cases hk : k0 = k
    · subst hk
      simp [alistGet, alistModify, hne]
    · simp [alistGet, alistModify, hk, ih]

theorem alistModify_alistModify_self {α β : Type} [DecidableEq α] (l : List (α × β)) (k : α)
    (dflt : β) (f g : β → β) :
    alistModify (alistModify l k dflt f) k dflt g = alistModify l k dflt (fun v => g (f v)) := by
  induction l with
  | nil => simp [alistModify]
  | cons hd tl ih =>
    obtain ⟨k0, v0⟩ := hd
    by_cases hk : k0 = k
    · simp [alistModify, hk]
    · simp [alistModify, hk, ih]

/-! Helper lemmas about `getBoundAux` and insertion. -/

theorem getBoundAux_insert_ne (bind_name : String) (b : KeyBind)
    (hb : b.bind_name ≠ bind_name) (k : Trigger) (l : List (Trigger × List KeyBind)) :
    getBoundAux bind_name (alistModify l k [] (fun x => x ++ [b])) = getBoundAux bind_name l := by
  have hbeq : (b.bind_name == bind_name) = false := beq_eq_false_iff_ne.mpr hb
  have hfind : List.find? (fun x => x.bind_name == bind_name) [b] = none := by
    simp [List.find?, hbeq]
  induction l with
  | nil =>
    simp [alistModify, getBoundAux, hfind]
  | cons hd tl ih =>
    obtain ⟨k0, l0⟩ := hd
    by_cases hk : k0 = k
    · simp only [alistModify, hk, if_pos rfl, getBoundAux, List.find?_append, hfind]
      cases h0 : List.find? (fun x => x.bind_name == bind_name) l0 with
      | none => simp [Option.or, h0]
      | some x => simp [Option.or, h0]
    · simp only [alistModify, hk, if_neg hk, getBoundAux]
      cases h0 : List.find? (fun x => x.bind_name == bind_name) l0 with
      | none => simpa [h0] using ih
      | some x => simp [h0]

theorem getBoundAux_insert_self (bind_name : String) (b : KeyBind)
    (hb : b.bind_name = bind_name) (k : Trigger) (l : List (Trigger × List KeyBind))
    (hnone : getBoundAux bind_name l = none) :
    getBoundAux bind_name (alistModify l k [] (fun x => x ++ [b])) = some (k, b.mod) := by
  have hfind : List.find? (fun x => x.bind_name == bind_name) [b] = some b := by
    simp [List.find?, hb]
  induction l with
  | nil =>
    simp [alistModify, getBoundAux, hfind]
  | cons hd tl ih =>
    obtain ⟨k0, l0⟩ := hd
    cases h0 : List.find? (fun x => x.bind_name == bind_name) l0 with
    | some x =>
      rw [getBoundAux, h0] at hnone
      exact absurd hnone (by simp)
    | none =>
      rw [getBoundAux, h0] at hnone
      by_cases hk : k0 = k
      · subst hk
        simp [alistModify, getBoundAux, List.find?_append, h0, hfind, Option.or]
      · simp only [alistModify, if_neg hk, getBoundAux, h0]
        exact ih hnone

theorem get_bound_key_insertBind_ne (km : KeyMap) (k : Trigger) (b : KeyBind)
    (bind_name : String) (hb : b.bind_name ≠ bind_name) :
    (km.insertBind k b).get_bound_key bind_name = km.get_bound_key bind_name :=
  getBoundAux_insert_ne bind_name b hb k km.key_binds

theorem get_bound_key_insertBind_self (km : KeyMap) (k : Trigger) (b : KeyBind)
    (hnone : km.get_bound_key b.bind_name = none) :
    (km.insertBind k b).get_bound_key b.bind_name = some (k, b.mod) :=
  getBoundAux_insert_self b.bind_name b rfl k km.key_binds hnone

/-! Helper lemmas about `merge`. -/

theorem mergeBindsAt_preserves_some (bind_name : String) (v : Trigger × Mods) (k : Trigger)
    (binds : List KeyBind) :
    ∀ acc : KeyMap, acc.get_bound_key bind_name = some v →
      (mergeBindsAt acc k binds).get_bound_key bind_name = some v := by
  induction binds with
  | nil => intro acc hacc; simpa [mergeBindsAt] using hacc
  | cons b rest ih =>
    intro acc hacc
    rw [mergeBindsAt]
    by_cases hpres : (acc.get_bound_key b.bind_name).isSome
    · simpa [hpres] using ih acc hacc
    · have hbne : b.bind_name ≠ bind_name := by
        intro heq
        rw [heq, hacc] at hpres
        simp at hpres
      have : (acc.insertBind k b).get_bound_key bind_name = some v := by
        rw [get_bound_key_insertBind_ne acc k b bind_name hbne]; exact hacc
      simpa [hpres] using ih _ this

theorem mergeEntries_preserves_some (bind_name : String) (v : Trigger × Mods)
    (entries : List (Trigger × List KeyBind)) :
    ∀ acc : KeyMap, acc.get_bound_key bind_name = some v →
      (mergeEntries acc entries).get_bound_key bind_name = some v := by
  induction entries with
  | nil => intro acc hacc; simpa [mergeEntries] using hacc
  | cons e rest ih =>
    intro acc hacc
    obtain ⟨k, binds⟩ := e
    rw [mergeEntries]
    exact ih _ (mergeBindsAt_preserves_some bind_name v k binds acc hacc)

theorem mergeBindsAt_none_of_no_match (bind_name : String) (k : Trigger) (binds : List KeyBind) :
    ∀ acc : KeyMap, acc.get_bound_key bind_name = none →
      List.find? (fun b => b.bind_name == bind_name) binds = none →
      (mergeBindsAt acc k binds).get_bound_key bind_name = none := by
  induction binds with
  | nil => intro acc hacc _; simpa [mergeBindsAt] using hacc
  | cons b rest ih =>
    intro acc hacc hfind
    rw [List.find?_cons] at hfind
    cases hbeq : (b.bind_name == bind_name) with
    | true => rw [hbeq] at hfind; simp at hfind
    | false =>
      rw [hbeq] at hfind
      have hbne : b.bind_name ≠ bind_name := by
        intro heq; rw [heq] at hbeq; simp at hbeq
      rw [mergeBindsAt]
      by_cases hpres : (acc.get_bound_key b.bind_name).isSome
      · simpa [hpres] using ih acc hacc hfind
      · have : (acc.insertBind k b).get_bound_key bind_name = none := by
          rw [get_bound_key_insertBind_ne acc k b bind_name hbne]; exact hacc
        simpa [hpres] using ih _ this hfind

theorem mergeBindsAt_finds_first (bind_name : String) (k : Trigger) (binds : List KeyBind)
    (b : KeyBind) :
    ∀ acc : KeyMap, acc.get_bound_key bind_name = none →
      List.find? (fun x => x.bind_name == bind_name) binds = some b →
      (mergeBindsAt acc k binds).get_bound_key bind_name = some (k, b.mod) := by
  induction binds with
  | nil => intro acc _ hfind; simp at hfind
  | cons b0 rest ih =>
    intro acc hacc hfind
    rw [List.find?_cons] at hfind
    cases hbeq : (b0.bind_name == bind_name) with
    | true =>
      rw [hbeq] at hfind
      have hb0 : b0 = b := by simpa using hfind
      subst hb0
      have hname : b0.bind_name = bind_name := by simpa using hbeq
      have hpres : (acc.get_bound_key b0.bind_name).isSome = false := by
        rw [hname, hacc]; rfl
      have hins : (acc.insertBind k b0).get_bound_key bind_name = some (k, b0.mod) := by
        have := get_bound_key_insertBind_self acc k b0 (by rw [hname]; exact hacc)
        rwa [hname] at this
      rw [mergeBindsAt]
      simpa [hpres] using mergeBindsAt_preserves_some bind_name (k, b0.mod) k rest _ hins
    | false =>
      rw [hbeq] at hfind
      have hbne : b0.bind_name ≠ bind_name := by
        intro heq; rw [heq] at hbeq; simp at hbeq
      rw [mergeBindsAt]
      by_cases hpres : (acc.get_bound_key b0.bind_name).isSome
      · simpa [hpres] using ih acc hacc hfind
      · have : (acc.insertBind k b0).get_bound_key bind_name = none := by
          rw [get_bound_key_insertBind_ne acc k b0 bind_name hbne]; exact hacc
        simpa [hpres] using ih _ this hfind

theorem mergeEntries_finds (bind_name : String) (km : Trigger × Mods)
    (entries : List (Trigger × List KeyBind)) :
    ∀ acc : KeyMap, acc.get_bound_key bind_name = none →
      getBoundAux bind_name entries = some km →
      (mergeEntries acc entries).get_bound_key bind_name = some km := by
  induction entries with
  | nil => intro acc _ hfound; simp [getBoundAux] at hfound
  | cons e rest ih =>
    intro acc hacc hfound
    obtain ⟨k, binds⟩ := e
    rw [mergeEntries]
    rw [getBoundAux] at hfound
    cases hfind : List.find? (fun x => x.bind_name == bind_name) binds with
    | some b =>
      rw [hfind] at hfound
      have hkm : km = (k, b.mod) := by
        cases hfound; rfl
      subst hkm
      exact mergeEntries_preserves_some bind_name (k, b.mod) rest _
        (mergeBindsAt_finds_first bind_name k binds b acc hacc hfind)
    | none =>
      rw [hfind] at hfound
      exact ih _ (mergeBindsAt_none_of_no_match bind_name k binds acc hacc hfind) hfound

/-- Claim C2: `merge(other)` inserts, at its trigger in `other`, every bind whose
name is absent (by name) from `self`, and never removes or overwrites a bind
name already present in `self` (first-registrant-wins); `KeyListener.load_from_file`
applies exactly this merge of the parsed file's table into the shared key map. -/
theorem claim_C2_merge (self other : KeyMap) (bind_name : String) :
    (∀ v, self.get_bound_key bind_name = some v →
      (KeyListener.load_from_file self other).get_bound_key bind_name = some v) ∧
    (self.get_bound_key bind_name = none →
      ∀ p, other.get_bound_key bind_name = some p →
        (KeyListener.load_from_file self other).get_bound_key bind_name = some p) := by
  constructor
  · intro v hv
    exact mergeEntries_preserves_some bind_name v other.key_binds self hv
  · intro hnone p hp
    exact mergeEntries_finds bind_name p other.key_binds self hnone hp

/-- Witness for claim C2 at a concrete pair of tables: bind `"a"` of `self` is
kept, bind `"b"` of `other` is inserted at `other`'s trigger. -/
theorem claim_C2_merge_witness :
    (KeyListener.load_from_file ⟨[(some 1, [⟨"a", none⟩])]⟩ ⟨[(some 2, [⟨"b", some 3⟩])]⟩).get_bound_key "b" =
      some (some 2, some 3) :=
  (claim_C2_merge ⟨[(some 1, [⟨"a", none⟩])]⟩ ⟨[(some 2, [⟨"b", some 3⟩])]⟩ "b").2 (by decide)
    (some 2, some 3) (by decide)

/-- Claim C7: `generate` is idempotent: after `generate(name, t, m)` on a table
not containing that name, `get_bound(name)` returns `(t, m)`; calling `generate`
again for the same name with different default trigger or modifier leaves the
stored trigger and modifier unchanged. -/
theorem claim_C7_generate (km : KeyMap) (bind_name : String) (t : Trigger) (m : Mods)
    (h : km.get_bound_key bind_name = none) :
    (KeyListener.generate_bind km bind_name t m).get_bound_key bind_name = some (t, m) ∧
    ∀ t2 m2,
      KeyListener.generate_bind (KeyListener.generate_bind km bind_name t m) bind_name t2 m2 =
        KeyListener.generate_bind km bind_name t m := by
  have hfirst : (KeyListener.generate_bind km bind_name t m).get_bound_key bind_name =
      some (t, m) := by
    rw [KeyListener.generate_bind, h]
    simp only [Option.isSome_none, Bool.false_eq_true, if_false]
    exact get_bound_key_insertBind_self km t ⟨bind_name, m⟩ h
  refine ⟨hfirst, ?_⟩
  intro t2 m2
  rw [KeyListener.generate_bind, hfirst]
  simp

/-- Witness for claim C7 at a concrete input: generating `"jump"` on the empty
table stores `(32, 0)`. -/
theorem claim_C7_generate_witness :
    (KeyListener.generate_bind ⟨[]⟩ "jump" (some 32) (some 0)).get_bound_key "jump" =
      some (some 32, some 0) :=
  (claim_C7_generate ⟨[]⟩ "jump" (some 32) (some 0) rfl).1

/-- A free callable with no concurrency markers, as plain `def` functions are. -/
def plainFunc : PyFunc := ⟨1, false, false⟩

/-- Key map holding the single bind `"jump"` with the exactly-no-modifiers
sentinel `KMOD_NONE = 0`, under key 32 (`K_SPACE`). -/
def kmSentinel : KeyMap := ⟨[(some 32, [⟨"jump", some 0⟩])]⟩

/-- Listener with `plainFunc` hooked to `"jump"` for event type 768 (`KEYDOWN`). -/
def klSentinel : KeyListener := ⟨[("jump", [(768, [plainFunc])])], [], [], [], []⟩

/-- A `KEYDOWN` event for key 32 with modifier bitmask 0 (no modifiers pressed). -/
def evSentinel : Event := ⟨768, some 32, some 0⟩

/-- Claim C1, evaluated at the failing input: the dispatch modifier test of
`KeyListener.notify` is only
`bind_mod is None  OR  (m is not None and bind_mod & m != 0)` — the claim's
third disjunct `bind_mod == m` is absent from the code.  Hence a bind whose
modifier is the no-modifiers sentinel `KMOD_NONE = 0` never fires, even when
the incoming event's modifier bitmask is 0 (where the claim, the spec and the
docstring of `KeyListener.bind` say it must fire): `0 & 0 == 0` is falsy, so
the bind is skipped and `notify` performs no invocation at all. -/
theorem claim_C1_sentinel_eval :
    matchesMods (some 0) (some 0) = false ∧
    KeyListener.notify kmSentinel klSentinel evSentinel = [] := ⟨rfl, rfl⟩

/-- Key map holding the single bind `"jump"` (wildcard modifier) under key 32. -/
def kmRebind : KeyMap := ⟨[(some 32, [⟨"jump", none⟩])]⟩

/-- Claim C4, evaluated at the failing input: the guard of `KeyListener.rebind`
is inverted — `if old_bind:` fires exactly when the bind DOES exist, logging
"bind does not exist" and returning without touching the table.  Rebinding the
previously generated bind `"jump"` from key 32 to key 13 therefore leaves the
key map unchanged and returns None, where the claim (and the method's own
docstring and warning text) says the bind moves to the new trigger. -/
theorem claim_C4_rebind_eval :
    KeyListener.rebind kmRebind "jump" (some 13) none = (kmRebind, none) ∧
    kmRebind.get_bound_key "jump" = some (some 32, none) := ⟨rfl, rfl⟩

/-- Key map as built by the repository's own `test_get_bound_key`: one bind
`"test_bind"` under key 57 (`K_9`) with modifier 256 (`KMOD_ALT`). -/
def kmLookup : KeyMap := ⟨[(some 57, [⟨"test_bind", some 256⟩])]⟩

/-- Claim C8, evaluated at the failing input: `get_bound_key` on a name that was
never generated returns None — an ordinary successful return (its docstring:
"If the bind is not used, returns None"), not a `NotFound` error raised to the
caller.  The repository's own test `test_get_bound_key` asserts that this call
raises `ValueError`, which the src implementation never does. -/
theorem claim_C8_get_bound_eval :
    kmLookup.get_bound_key "unbound_name" = none := rfl

/-- Counterexample to claim C5: `deregister_class` on a type that was never
registered is NOT a non-fatal no-op — `self._assigned_classes.pop(cls)` has no
default, so the call raises KeyError (as the method's own docstring documents). -/
theorem claim_C5_counterexample :
    KeyListener.deregister_class KeyListener.init 3 = Except.error "KeyError" := rfl

/-- Claim C5 as amended: `unbind` on a bind name that is not present warns and
leaves the state unchanged without raising; but `deregister_class` on a type
that was never registered and `unbind_method` on a method that was never
captured raise KeyError (for `deregister_class` the raise is documented in its
docstring). -/
theorem claim_C5_amended :
    (∀ (kl : KeyListener) (func : PyFunc) (bind_name : String),
      alistGet kl.key_hooks bind_name = none →
        KeyListener.unbind_named kl func bind_name = kl) ∧
    (∀ (kl : KeyListener) (cls : Nat),
      alistGet kl.assigned_classes cls = none →
        KeyListener.deregister_class kl cls = Except.error "KeyError") ∧
    (∀ (kl : KeyListener) (method : Nat),
      alistGet kl.class_listener_binds method = none →
        KeyListener.unbind_method kl method = Except.error "KeyError") := by
  refine ⟨?_, ?_, ?_⟩
  · intro kl func bind_name h
    rw [KeyListener.unbind_named, h]
  · intro kl cls h
    rw [KeyListener.deregister_class]
    simp only [h, Option.getD_none, List.foldl_nil]
  · intro kl method h
    rw [KeyListener.unbind_method]
    simp only [h, Option.getD_none, List.foldl_nil]

/-- Witness for claim C5 as amended, at concrete inputs on the empty listener. -/
theorem claim_C5_amended_witness :
    KeyListener.unbind_named KeyListener.init plainFunc "ghost" = KeyListener.init ∧
    KeyListener.deregister_class KeyListener.init 7 = Except.error "KeyError" ∧
    KeyListener.unbind_method KeyListener.init 8 = Except.error "KeyError" :=
  ⟨claim_C5_amended.1 KeyListener.init plainFunc "ghost" rfl,
   claim_C5_amended.2.1 KeyListener.init 7 rfl,
   claim_C5_amended.2.2 KeyListener.init 8 rfl⟩

/-- Counterexample to claim C6: `EventManager.register` appends without any
membership check, so registering the same callable a second time under the same
event subtype leaves TWO entries, not one. -/
theorem claim_C6_counterexample :
    alistGet (EventManager.register (EventManager.register EventManager.init 768 7) 768 7).listeners
      768 = some [7, 7] := rfl

theorem generate_bind_isSome (km : KeyMap) (bind_name : String) (dk : Trigger) (dm : Mods) :
    ((KeyListener.generate_bind km bind_name dk dm).get_bound_key bind_name).isSome = true := by
  rw [KeyListener.generate_bind]
  by_cases h : (km.get_bound_key bind_name).isSome
  · simp [h]
  · have hn : km.get_bound_key bind_name = none := Option.not_isSome_iff_eq_none.mp h
    have h2 : (km.insertBind dk ⟨bind_name, dm⟩).get_bound_key bind_name = some (dk, dm) :=
      get_bound_key_insertBind_self km dk ⟨bind_name, dm⟩ hn
    simp only [h, if_false, Bool.false_eq_true]
    show ((km.insertBind dk ⟨bind_name, dm⟩).get_bound_key bind_name).isSome = true
    rw [h2]
    rfl

/-- Claim C6 as amended: `KeyListener.bind` checks membership before appending,
so binding the same callable a second time under the same bind name and event
subtype changes nothing (at most one entry per responder per
`(bind_name, event_type)` pair); `EventManager.register` and
`KeyListener._capture_method`, in contrast, append unconditionally, so repeated
registration there accumulates duplicate entries (see the counterexample). -/
theorem claim_C6_amended (km : KeyMap) (kl : KeyListener) (bind_name : String)
    (dk : Trigger) (dm : Mods) (event_type : Nat) (responder : PyFunc) :
    KeyListener.bind (KeyListener.bind km kl bind_name dk dm event_type responder).1
      (KeyListener.bind km kl bind_name dk dm event_type responder).2 bind_name dk dm
      event_type responder =
    KeyListener.bind km kl bind_name dk dm event_type responder := by
  simp only [KeyListener.bind]
  refine Prod.ext ?_ ?_
  · show KeyListener.generate_bind (KeyListener.generate_bind km bind_name dk dm) bind_name dk dm =
      KeyListener.generate_bind km bind_name dk dm
    have hs := generate_bind_isSome km bind_name dk dm
    generalize hG : KeyListener.generate_bind km bind_name dk dm = G at hs ⊢
    rw [KeyListener.generate_bind, hs]
    simp
  · show ({ kl with key_hooks := _ } : KeyListener) = { kl with key_hooks := _ }
    congr 1
    rw [alistModify_alistModify_self]
    congr 1
    funext hooks
    rw [alistModify_alistModify_self]
    congr 1
    funext listeners
    by_cases h : responder ∈ listeners <;> simp [h]

/-- A callable explicitly marked sequential with `BaseManager.sequential`. -/
def seqFunc : PyFunc := BaseManager.sequential ⟨9, false, false⟩

/-- Key map with the wildcard-modifier bind `"jump"` under key 32. -/
def kmSeq : KeyMap := ⟨[(some 32, [⟨"jump", none⟩])]⟩

/-- Listener with the sequential-marked `seqFunc` hooked to `"jump"`, type 768. -/
def klSeq : KeyListener := ⟨[("jump", [(768, [seqFunc])])], [], [], [], []⟩

/-- A `KEYDOWN` event for key 32, no modifiers. -/
def evSeq : Event := ⟨768, some 32, some 0⟩

/-- Counterexample to claim C9: the responder carries the sequential marker, yet
`KeyListener.notify` dispatches it with `threading.Thread(...).start()` — the
single execution path the code has (the synchronous call `hook(event)` is
commented out).  The marker therefore does NOT determine which of two execution
paths `notify` uses: there is no synchronous path at all. -/
theorem claim_C9_counterexample :
    seqFunc.runs_sequential = true ∧
    KeyListener.notify kmSeq klSeq evSeq = [DispatchAction.thread seqFunc] := ⟨rfl, rfl⟩

/-- Claim C9 as amended: `BaseManager.sequential` and `BaseManager.concurrent`
set mutually exclusive markers on the callable (each clears the other), but
`KeyListener.notify` never consults them: every dispatch it performs — for
responders and for method/instance pairs alike — starts an independent worker
thread, and no synchronous execution path exists. -/
theorem claim_C9_amended :
    (∀ f : PyFunc,
      (BaseManager.sequential f).runs_sequential = true ∧
      (BaseManager.sequential f).runs_concurrent = false ∧
      (BaseManager.concurrent f).runs_concurrent = true ∧
      (BaseManager.concurrent f).runs_sequential = false) ∧
    (∀ (km : KeyMap) (kl : KeyListener) (ev : Event),
      (KeyListener.notify km kl ev).all DispatchAction.isThread = true) := by
  constructor
  · intro f
    exact ⟨rfl, rfl, rfl, rfl⟩
  · intro km kl ev
    rw [List.all_eq_true]
    intro a ha
    rw [KeyListener.notify] at ha
    obtain ⟨l, hl, hal⟩ := List.mem_flatten.mp ha
    obtain ⟨kb, _, rfl⟩ := List.mem_map.mp hl
    rw [bindActions] at hal
    by_cases hm : matchesMods kb.mod ev.mod
    · rw [if_pos hm] at hal
      rcases List.mem_append.mp hal with h1 | h2
      · obtain ⟨g, _, rfl⟩ := List.mem_map.mp h1
        rfl
      · obtain ⟨l2, hl2, ha2⟩ := List.mem_flatten.mp h2
        obtain ⟨mc, _, rfl⟩ := List.mem_map.mp hl2
        obtain ⟨inst, _, rfl⟩ := List.mem_map.mp ha2
        rfl
    · rw [if_neg hm] at hal
      cases hal

theorem consumeFirst_listener (selfId : Nat) :
    ∀ (entries rest : List TagEntry) (e : TagEntry),
      consumeFirst selfId entries = (some e, rest) → e.listener = selfId := by
  intro entries
  induction entries with
  | nil =>
    intro rest e h
    simp [consumeFirst] at h
  | cons e0 tl ih =>
    intro rest e h
    rw [consumeFirst] at h
    by_cases h0 : e0.listener = selfId
    · rw [if_pos h0] at h
      obtain ⟨he, _⟩ := Prod.mk.injEq .. ▸ h
      cases he
      exact h0
    · rw [if_neg h0] at h
      obtain ⟨h1, _⟩ := Prod.mk.injEq .. ▸ h
      cases hr : consumeFirst selfId tl with
      | mk o rem =>
        rw [hr] at h1
        exact ih rem e (by rw [hr, ← h1])

theorem listenersFor_capture_method (km : KeyMap) (kl : KeyListener) (cls mid : Nat)
    (bind_name : String) (dk : Trigger) (dm : Mods) (event_type : Nat) :
    listenersFor (KeyListener.capture_method km kl cls mid bind_name dk dm event_type).2
      bind_name event_type = listenersFor kl bind_name event_type ++ [(mid, cls)] := by
  simp only [KeyListener.capture_method, listenersFor]
  rw [alistGet_alistModify_self, Option.getD_some, alistGet_alistModify_self, Option.getD_some]

/-- Claim C3 as amended: for a method whose pending-tag list contains an entry
naming the calling dispatcher, `register_class` captures the FIRST such entry —
the method is added to the registry under that entry's bind name and event
subtype — and removes exactly that entry from the pending list (the loop in
`_verify_listener` breaks after its first match); the marker attribute is
stripped exactly when the remaining list is empty.  Consequently a method
tagged for dispatchers D and E loses the marker only after both call
`register_class`, and a method tagged TWICE for the same dispatcher has only
one entry consumed per `register_class` call (see the counterexample). -/
theorem claim_C3_amended (km : KeyMap) (kl : KeyListener) (selfId cls : Nat)
    (m : TaggedMethod) (entries rest : List TagEntry) (e : TagEntry)
    (hm : m.assigned_listeners = some entries)
    (hc : consumeFirst selfId entries = (some e, rest)) :
    e.listener = selfId ∧
    (KeyListener.register_class_method km kl selfId cls m).2.2.assigned_listeners =
      (if rest.isEmpty then none else some rest) ∧
    (m.id, cls) ∈ listenersFor (KeyListener.register_class_method km kl selfId cls m).2.1
      e.bind_name e.event_type := by
  obtain ⟨mid, al⟩ := m
  simp only at hm
  subst hm
  refine ⟨consumeFirst_listener selfId entries rest e hc, ?_, ?_⟩
  · simp only [KeyListener.register_class_method, hc]
  · simp only [KeyListener.register_class_method, hc]
    rw [listenersFor_capture_method]
    exact List.mem_append_right _ (List.mem_singleton.mpr rfl)

/-- A method (id 7) tagged once, for the dispatcher with identity 2. -/
def tagOnce : TaggedMethod := ⟨7, some [⟨2, "a", none, none, 768⟩]⟩

/-- Witness for claim C3 as amended: registering `tagOnce`'s class with
dispatcher 2 strips the marker and captures the method under bind `"a"`. -/
theorem claim_C3_amended_witness :
    (KeyListener.register_class_method ⟨[]⟩ KeyListener.init 2 5 tagOnce).2.2.assigned_listeners =
      none ∧
    (7, 5) ∈ listenersFor (KeyListener.register_class_method ⟨[]⟩ KeyListener.init 2 5
      tagOnce).2.1 "a" 768 := by
  have h := claim_C3_amended ⟨[]⟩ KeyListener.init 2 5 tagOnce [⟨2, "a", none, none, 768⟩] []
    ⟨2, "a", none, none, 768⟩ rfl rfl
  exact ⟨h.2.1, h.2.2⟩

/-- A method (id 7) tagged twice for the same dispatcher (identity 1), under
bind names `"b1"` and `"b2"`. -/
def tagTwice : TaggedMethod := ⟨7, some [⟨1, "b1", none, none, 768⟩, ⟨1, "b2", none, none, 768⟩]⟩

/-- Counterexample to claim C3: the claim says a method tagged twice for the
same dispatcher has BOTH entries consumed by that dispatcher's single
`register_class` call.  The `break` in `_verify_listener` consumes only the
first: after one `register_class`, the second entry is still pending (the
marker attribute is NOT stripped) and nothing was captured under `"b2"`. -/
theorem claim_C3_counterexample :
    (KeyListener.register_class_method ⟨[]⟩ KeyListener.init 1 5 tagTwice).2.2.assigned_listeners =
      some [⟨1, "b2", none, none, 768⟩] ∧
    listenersFor (KeyListener.register_class_method ⟨[]⟩ KeyListener.init 1 5 tagTwice).2.1
      "b2" 768 = [] := ⟨rfl, rfl⟩

/-- Claim C10: an event with no `key` attribute is read as trigger None by
`notify` (`getattr(event, "key", None)`), so the binds stored under the
unassigned None trigger whose modifier rule matches fire — in particular a bind
rebound to the unassigned trigger stays invocable by such trigger-less events:
each responder hooked to it is dispatched. -/
theorem claim_C10_unassigned (km : KeyMap) (kl : KeyListener) (b : KeyBind) (ev : Event)
    (f : PyFunc) (hkey : ev.key = none) (hmod : matchesMods b.mod ev.mod = true)
    (hf : f ∈ respondersFor kl b.bind_name ev.etype) :
    DispatchAction.thread f ∈ KeyListener.notify (km.rebind b none) kl ev := by
  rw [KeyListener.notify, hkey, KeyMap.rebind]
  rw [alistGet_alistModify_self, Option.getD_some]
  refine List.mem_flatten.mpr ⟨bindActions kl ev b, ?_, ?_⟩
  · exact List.mem_map_of_mem _ (List.mem_append_right _ (List.mem_singleton.mpr rfl))
  · rw [bindActions, if_pos hmod]
    exact List.mem_append_left _ (List.mem_map_of_mem _ hf)

/-- A free callable used in the C10 witness. -/
def actFunc : PyFunc := ⟨5, false, false⟩

/-- Listener hooking `actFunc` to bind `"act"` for event type 768. -/
def klAct : KeyListener := ⟨[("act", [(768, [actFunc])])], [], [], [], []⟩

/-- Witness for claim C10 at a concrete input: after rebinding `"act"` to the
unassigned trigger, an event without a `key` attribute still dispatches
`actFunc`. -/
theorem claim_C10_unassigned_witness :
    DispatchAction.thread actFunc ∈
      KeyListener.notify (KeyMap.rebind ⟨[(some 32, [⟨"act", none⟩])]⟩ ⟨"act", none⟩ none) klAct
        ⟨768, none, none⟩ :=
  claim_C10_unassigned ⟨[(some 32, [⟨"act", none⟩])]⟩ klAct ⟨"act", none⟩ ⟨768, none, none⟩
    actFunc rfl rfl (by decide)

end EventHandler
